import Mathlib

/-!
Verification of the r-wire capture backend (src/src-tauri/src): the packet
dissector (`dissector.rs`), the bounded packet cache and capture pipeline
(`capture.rs`), the pcap exporter (`export.rs`) and the command surface
(`lib.rs`), shallowly embedded over `List ℕ` byte buffers.  Machine integers
are modelled as `ℕ` / `ℤ` with explicit `% 2 ^ w` at the points where the
Rust code casts.
-/

namespace RWire

/-! ## Byte-level helpers -/

/-- Big-endian 16-bit read from two bytes (network byte order used by the
packet headers). -/
def beU16 (hi lo : ℕ) : ℕ := hi * 256 + lo

/-- Bytes of `u16::to_le_bytes`. -/
def le16 (n : ℕ) : List ℕ := [n % 256, n / 256 % 256]

/-- Bytes of `u32::to_le_bytes`. -/
def le32 (n : ℕ) : List ℕ :=
  [n % 256, n / 256 % 256, n / 2 ^ 16 % 256, n / 2 ^ 24 % 256]

/-- Rust `as u32` cast of an `i64` value: the low 32 bits. -/
def u32ofInt (x : ℤ) : ℕ := (x % (2 ^ 32 : ℤ)).toNat

/-! ## String rendering helpers (model `Display` impls used by the code) -/

/-- Lowercase hex rendering without padding, as Rust `{:x}`. -/
def hexNoPad (n : ℕ) : String := String.mk (Nat.toDigits 16 n)

/-- Lowercase hex rendering zero-padded to width `w`, as Rust `{:0wx}`. -/
def hexPad (w n : ℕ) : String :=
  String.mk (List.replicate (w - (Nat.toDigits 16 n).length) '0' ++ Nat.toDigits 16 n)

/-- Models pnet `MacAddr`'s `Display`: six lowercase two-digit hex bytes
joined by colons. -/
def macToString (bs : List ℕ) : String :=
  String.intercalate ":" (bs.map (hexPad 2))

/-- Models Rust `Ipv4Addr`'s `Display`: dotted-quad decimal. -/
def ipv4ToString (bs : List ℕ) : String :=
  String.intercalate "." (bs.map Nat.repr)

/-- Scan for the longest (first, on ties) run of zero segments, mirroring the
span search in Rust std's `Ipv6Addr` `Display`. Returns (start, length). -/
def findZeroRun : List ℕ → ℕ → ℕ × ℕ → ℕ × ℕ → ℕ × ℕ
  | [], _, longest, _ => longest
  | s :: rest, i, longest, current =>
    if s = 0 then
      let cur2 : ℕ × ℕ := (if current.2 = 0 then i else current.1, current.2 + 1)
      let lon2 := if longest.2 < cur2.2 then cur2 else longest
      findZeroRun rest (i + 1) lon2 cur2
    else
      findZeroRun rest (i + 1) longest (0, 0)

def longestZeroRun (segs : List ℕ) : ℕ × ℕ := findZeroRun segs 0 (0, 0) (0, 0)

def segsToStr (segs : List ℕ) : String :=
  String.intercalate ":" (segs.map hexNoPad)

/-- Models Rust std `Ipv6Addr`'s `Display` on the eight 16-bit segments:
special cases for the unspecified address, loopback and IPv4-mapped
addresses, then zero-run compression (runs of length at least 2, first
longest run wins), segments in lowercase unpadded hex. -/
def ipv6ToString (segs : List ℕ) : String :=
  if segs = [0, 0, 0, 0, 0, 0, 0, 0] then "::"
  else if segs = [0, 0, 0, 0, 0, 0, 0, 1] then "::1"
  else if segs.take 6 = [0, 0, 0, 0, 0, 0xffff] then
    "::ffff:" ++ ipv4ToString
      [segs.getD 6 0 / 256, segs.getD 6 0 % 256, segs.getD 7 0 / 256, segs.getD 7 0 % 256]
  else
    let run := longestZeroRun segs
    if 1 < run.2 then
      segsToStr (segs.take run.1) ++ "::" ++ segsToStr (segs.drop (run.1 + run.2))
    else
      segsToStr segs

/-! ## Data model (`model.rs`) -/

/-- Embeds `model::CachedPacket`: raw bytes plus capture timestamp (ns, `i64`). -/
structure CachedPacket where
  data : List ℕ
  timestamp_ns : ℤ
deriving DecidableEq, Repr

/-- Embeds `model::PacketSummary`. -/
structure PacketSummary where
  id : ℕ
  timestamp : ℤ
  source_addr : String
  dest_addr : String
  protocol : String
  length : ℕ
  info : String
deriving DecidableEq, Repr

/-- Embeds `model::ProtocolLayer`. -/
structure ProtocolLayer where
  name : String
  fields : List (String × String)
deriving DecidableEq, Repr

/-- Embeds `model::PacketDetail`. -/
structure PacketDetail where
  summary : PacketSummary
  layers : List ProtocolLayer
  raw_bytes : List ℕ
deriving DecidableEq, Repr

/-! ## pnet packet-slice accessors

These model the pnet packet views used by `dissector.rs`: `EthernetPacket`
(14-byte minimum; ethertype big-endian at offset 12; payload is the rest),
`Ipv4Packet` (20-byte minimum; payload starts after the options and is
clamped to `total_length - ihl*4` bytes, both saturating), `Ipv6Packet`
(40-byte minimum; payload clamped to the payload-length field),
`TcpPacket` (20-byte minimum) and `UdpPacket` (8-byte minimum). -/

def ethType (raw : List ℕ) : ℕ := beU16 (raw.getD 12 0) (raw.getD 13 0)

def ethPayload (raw : List ℕ) : List ℕ := raw.drop 14

def ethDst (raw : List ℕ) : List ℕ := raw.take 6

def ethSrc (raw : List ℕ) : List ℕ := (raw.drop 6).take 6

def ipv4Ihl (p : List ℕ) : ℕ := p.getD 0 0 % 16

def ipv4TotalLen (p : List ℕ) : ℕ := beU16 (p.getD 2 0) (p.getD 3 0)

def ipv4Proto (p : List ℕ) : ℕ := p.getD 9 0

def ipv4Src (p : List ℕ) : List ℕ := (p.drop 12).take 4

def ipv4Dst (p : List ℕ) : List ℕ := (p.drop 16).take 4

/-- pnet `ipv4_options_length`: `(ihl*4).saturating_sub(20)`. -/
def ipv4OptionsLen (p : List ℕ) : ℕ := ipv4Ihl p * 4 - 20

/-- pnet `ipv4_payload_length`: `total_length.saturating_sub(ihl*4)`. -/
def ipv4PayloadLen (p : List ℕ) : ℕ := ipv4TotalLen p - ipv4Ihl p * 4

/-- pnet `Ipv4Packet::payload`: the slice after the options, clamped to the
payload length and to the end of the buffer. -/
def ipv4Payload (p : List ℕ) : List ℕ :=
  (p.drop (20 + ipv4OptionsLen p)).take (ipv4PayloadLen p)

def ipv6NextHeader (p : List ℕ) : ℕ := p.getD 6 0

def ipv6PayloadLen (p : List ℕ) : ℕ := beU16 (p.getD 4 0) (p.getD 5 0)

/-- pnet `Ipv6Packet::payload`: bytes after the 40-byte header, clamped to
the payload-length field and to the end of the buffer. -/
def ipv6Payload (p : List ℕ) : List ℕ := (p.drop 40).take (ipv6PayloadLen p)

/-- The eight 16-bit segments of an IPv6 address starting at `off`. -/
def ipv6Segs (p : List ℕ) (off : ℕ) : List ℕ :=
  (List.range 8).map (fun i => beU16 (p.getD (off + 2 * i) 0) (p.getD (off + 2 * i + 1) 0))

def tcpDstPort (l4 : List ℕ) : ℕ := beU16 (l4.getD 2 0) (l4.getD 3 0)

def udpDstPort (l4 : List ℕ) : ℕ := beU16 (l4.getD 2 0) (l4.getD 3 0)

/-! ## `dissector::parse_summary` -/

/-- Embeds `dissector::parse_summary`, the summary parser:
`None` exactly at the `?` early exits of the Rust code (Ethernet view,
and the IPv4 / IPv6 views inside those branches). -/
def parse_summary (raw_data : List ℕ) (id : ℕ) (timestamp_ns : ℤ) :
    Option PacketSummary :=
  if raw_data.length < 14 then none
  else
    let et := ethType raw_data
    if et = 0x0800 then
      let p := ethPayload raw_data
      if p.length < 20 then none
      else
        let src := ipv4ToString (ipv4Src p)
        let dst := ipv4ToString (ipv4Dst p)
        let proto :=
          if ipv4Proto p = 6 then "TCP"
          else if ipv4Proto p = 17 then "UDP"
          else if ipv4Proto p = 1 then "ICMP"
          else "IPv4"
        let info :=
          if ipv4Proto p = 6 then
            if 20 ≤ (ipv4Payload p).length then
              src ++ " → " ++ dst ++ " [" ++ Nat.repr (tcpDstPort (ipv4Payload p)) ++ "]"
            else src ++ " → " ++ dst
          else if ipv4Proto p = 17 then
            if 8 ≤ (ipv4Payload p).length then
              src ++ " → " ++ dst ++ " [" ++ Nat.repr (udpDstPort (ipv4Payload p)) ++ "]"
            else src ++ " → " ++ dst
          else src ++ " → " ++ dst
        some ⟨id, timestamp_ns, src, dst, proto, raw_data.length % 2 ^ 32, info⟩
    else if et = 0x86DD then
      let p := ethPayload raw_data
      if p.length < 40 then none
      else
        let src := ipv6ToString (ipv6Segs p 8)
        let dst := ipv6ToString (ipv6Segs p 24)
        let proto :=
          if ipv6NextHeader p = 6 then "TCP"
          else if ipv6NextHeader p = 17 then "UDP"
          else if ipv6NextHeader p = 58 then "ICMPv6"
          else "IPv6"
        some ⟨id, timestamp_ns, src, dst, proto, raw_data.length % 2 ^ 32,
          src ++ " → " ++ dst⟩
    else if et = 0x0806 then
      some ⟨id, timestamp_ns, macToString (ethSrc raw_data), macToString (ethDst raw_data),
        "ARP", raw_data.length % 2 ^ 32, "ARP"⟩
    else
      some ⟨id, timestamp_ns, macToString (ethSrc raw_data), macToString (ethDst raw_data),
        "Unknown", raw_data.length % 2 ^ 32, "Unknown"⟩

/-! ## `dissector::dissect_packet` -/

/-- Is `b` a UTF-8 continuation byte (`0x80..=0xBF`)? -/
def contB (b : ℕ) : Bool := decide (0x80 ≤ b ∧ b ≤ 0xBF)

/-- Models Rust `std::str::from_utf8(..).is_ok()`: standard UTF-8 validity
(rejecting overlong encodings, surrogates and values above U+10FFFF). -/
def isValidUtf8 : List ℕ → Bool
  | [] => true
  | b :: rest =>
    if b ≤ 0x7F then isValidUtf8 rest
    else if b < 0xC2 then false
    else if b ≤ 0xDF then
      match rest with
      | c :: r => contB c && isValidUtf8 r
      | [] => false
    else if b ≤ 0xEF then
      match rest with
      | c1 :: c2 :: r =>
        (if b = 0xE0 then decide (0xA0 ≤ c1 ∧ c1 ≤ 0xBF)
         else if b = 0xED then decide (0x80 ≤ c1 ∧ c1 ≤ 0x9F)
         else contB c1) && contB c2 && isValidUtf8 r
      | _ => false
    else if b ≤ 0xF4 then
      match rest with
      | c1 :: c2 :: c3 :: r =>
        (if b = 0xF0 then decide (0x90 ≤ c1 ∧ c1 ≤ 0xBF)
         else if b = 0xF4 then decide (0x80 ≤ c1 ∧ c1 ≤ 0x8F)
         else contB c1) && contB c2 && contB c3 && isValidUtf8 r
      | _ => false
    else false
termination_by l => l.length

/-- The bytes of an ASCII literal, for modelling `str::starts_with` on a
decoded UTF-8 slice at the byte level (the UTF-8 bytes of a decoded string
are the original bytes, so `starts_with` an ASCII literal is a byte-prefix
test). -/
def asciiBytes (s : String) : List ℕ := s.toList.map Char.toNat

def lenBytesField (n : ℕ) : String := Nat.repr n ++ " bytes"

/-- Embeds `dissector::parse_application_layer`.  The Rust function pushes at most
one layer onto `layers`; we model it as the list of layers appended. -/
def parse_application_layer (src_port dst_port : ℕ) (payload : List ℕ)
    (is_tcp : Bool) : List ProtocolLayer :=
  if payload.isEmpty then []
  else if src_port = 53 ∨ dst_port = 53 then
    [⟨"Domain Name System",
      [("Port", if src_port = 53 then "53 (Response)" else "53 (Query)"),
       ("Payload Length", lenBytesField payload.length)]⟩]
  else
    let httpTry : Option ProtocolLayer :=
      if is_tcp ∧ (src_port = 80 ∨ dst_port = 80 ∨ src_port = 443 ∨ dst_port = 443) then
        let head := payload.take 100
        if isValidUtf8 head then
          let mfields : List (String × String) :=
            if (asciiBytes "GET").isPrefixOf head then [("Method", "GET")]
            else if (asciiBytes "POST").isPrefixOf head then [("Method", "POST")]
            else if (asciiBytes "PUT").isPrefixOf head then [("Method", "PUT")]
            else if (asciiBytes "DELETE").isPrefixOf head then [("Method", "DELETE")]
            else if (asciiBytes "HTTP/").isPrefixOf head then [("Type", "Response")]
            else []
          if mfields.isEmpty then none
          else
            some ⟨if src_port = 443 ∨ dst_port = 443 then
                    "Hypertext Transfer Protocol Secure"
                  else "Hypertext Transfer Protocol",
              mfields ++ [("Payload Length", lenBytesField payload.length)]⟩
        else none
      else none
    match httpTry with
    | some l => [l]
    | none => [⟨"Application Data", [("Payload Length", lenBytesField payload.length)]⟩]

/-- Models pnet's `Display` for `IpNextHeaderProtocol` for the protocol
numbers this code formats (library code, outside this repository): the
registered protocol name for known numbers. Only the numbers below can be
reached with a distinct name in the dissected output; the exact text of
this field is not used by any claim. -/
def ipProtoName (n : ℕ) : String :=
  if n = 1 then "Icmp"
  else if n = 6 then "Tcp"
  else if n = 17 then "Udp"
  else if n = 58 then "Icmpv6"
  else "unknown"

def ipv4Flags (p : List ℕ) : ℕ := p.getD 6 0 / 32

def ipv4Identification (p : List ℕ) : ℕ := beU16 (p.getD 4 0) (p.getD 5 0)

def ipv4Ttl (p : List ℕ) : ℕ := p.getD 8 0

def tcpSrcPort (l4 : List ℕ) : ℕ := beU16 (l4.getD 0 0) (l4.getD 1 0)

def tcpSeq (l4 : List ℕ) : ℕ :=
  ((beU16 (l4.getD 4 0) (l4.getD 5 0)) * 65536) + beU16 (l4.getD 6 0) (l4.getD 7 0)

def tcpAck (l4 : List ℕ) : ℕ :=
  ((beU16 (l4.getD 8 0) (l4.getD 9 0)) * 65536) + beU16 (l4.getD 10 0) (l4.getD 11 0)

def tcpDataOffset (l4 : List ℕ) : ℕ := l4.getD 12 0 / 16

/-- pnet `Tcp` flags field: `u9be` spanning the low bit of byte 12 and all of
byte 13. -/
def tcpFlags (l4 : List ℕ) : ℕ := (l4.getD 12 0 % 2) * 256 + l4.getD 13 0

def tcpWindow (l4 : List ℕ) : ℕ := beU16 (l4.getD 14 0) (l4.getD 15 0)

/-- pnet `TcpPacket::payload`: after the fixed header and options
(`(data_offset*4).saturating_sub(20)` option bytes). -/
def tcpPayload (l4 : List ℕ) : List ℕ := l4.drop (20 + (tcpDataOffset l4 * 4 - 20))

def udpSrcPort (l4 : List ℕ) : ℕ := beU16 (l4.getD 0 0) (l4.getD 1 0)

def udpLen (l4 : List ℕ) : ℕ := beU16 (l4.getD 4 0) (l4.getD 5 0)

def udpChecksum (l4 : List ℕ) : ℕ := beU16 (l4.getD 6 0) (l4.getD 7 0)

/-- pnet `UdpPacket::payload`: the bytes after the 8-byte header. -/
def udpPayload (l4 : List ℕ) : List ℕ := l4.drop 8

def ipv6TrafficClass (p : List ℕ) : ℕ := (p.getD 0 0 % 16) * 16 + p.getD 1 0 / 16

def ipv6FlowLabel (p : List ℕ) : ℕ :=
  (p.getD 1 0 % 16) * 65536 + beU16 (p.getD 2 0) (p.getD 3 0)

def ipv6HopLimit (p : List ℕ) : ℕ := p.getD 7 0

/-- The TCP detail layer (`dissect_packet`, both the IPv4 and IPv6 arms build
the same fields). -/
def tcpLayer (l4 : List ℕ) : ProtocolLayer :=
  ⟨"Transmission Control Protocol",
    [("Source Port", Nat.repr (tcpSrcPort l4)),
     ("Destination Port", Nat.repr (tcpDstPort l4)),
     ("Sequence Number", Nat.repr (tcpSeq l4)),
     ("Acknowledgment Number", Nat.repr (tcpAck l4)),
     ("Data Offset", lenBytesField (tcpDataOffset l4 * 4)),
     ("Flags", "0x" ++ hexPad 2 (tcpFlags l4)),
     ("Window Size", Nat.repr (tcpWindow l4))]⟩

/-- The UDP detail layer. -/
def udpLayer (l4 : List ℕ) : ProtocolLayer :=
  ⟨"User Datagram Protocol",
    [("Source Port", Nat.repr (udpSrcPort l4)),
     ("Destination Port", Nat.repr (udpDstPort l4)),
     ("Length", lenBytesField (udpLen l4)),
     ("Checksum", "0x" ++ hexPad 4 (udpChecksum l4))]⟩

/-- The L4 (and application) layers appended in the IPv4 arm of
`dissect_packet`. -/
def ipv4L4Layers (p : List ℕ) : List ProtocolLayer :=
  if ipv4Proto p = 6 then
    if 20 ≤ (ipv4Payload p).length then
      let l4 := ipv4Payload p
      tcpLayer l4 ::
        (if (tcpPayload l4).isEmpty then []
         else parse_application_layer (tcpSrcPort l4) (tcpDstPort l4) (tcpPayload l4) true)
    else []
  else if ipv4Proto p = 17 then
    if 8 ≤ (ipv4Payload p).length then
      let l4 := ipv4Payload p
      udpLayer l4 ::
        (if (udpPayload l4).isEmpty then []
         else parse_application_layer (udpSrcPort l4) (udpDstPort l4) (udpPayload l4) false)
    else []
  else if ipv4Proto p = 1 then
    [⟨"Internet Control Message Protocol",
      [("Payload Length", lenBytesField (ipv4Payload p).length)]⟩]
  else []

/-- The L4 (and application) layers appended in the IPv6 arm of
`dissect_packet`. -/
def ipv6L4Layers (p : List ℕ) : List ProtocolLayer :=
  if ipv6NextHeader p = 6 then
    if 20 ≤ (ipv6Payload p).length then
      let l4 := ipv6Payload p
      tcpLayer l4 ::
        (if (tcpPayload l4).isEmpty then []
         else parse_application_layer (tcpSrcPort l4) (tcpDstPort l4) (tcpPayload l4) true)
    else []
  else if ipv6NextHeader p = 17 then
    if 8 ≤ (ipv6Payload p).length then
      let l4 := ipv6Payload p
      udpLayer l4 ::
        (if (udpPayload l4).isEmpty then []
         else parse_application_layer (udpSrcPort l4) (udpDstPort l4) (udpPayload l4) false)
    else []
  else []

def ethernetLayer (raw : List ℕ) : ProtocolLayer :=
  ⟨"Ethernet",
    [("Destination", macToString (ethDst raw)),
     ("Source", macToString (ethSrc raw)),
     ("Type", "0x" ++ hexPad 4 (ethType raw))]⟩

def ipv4Layer (p : List ℕ) : ProtocolLayer :=
  ⟨"Internet Protocol Version 4",
    [("Version", "4"),
     ("Header Length", lenBytesField (ipv4Ihl p * 4)),
     ("Total Length", lenBytesField (ipv4TotalLen p)),
     ("Identification", "0x" ++ hexPad 4 (ipv4Identification p)),
     ("Flags", "0x" ++ hexPad 2 (ipv4Flags p)),
     ("TTL", Nat.repr (ipv4Ttl p)),
     ("Protocol", Nat.repr (ipv4Proto p) ++ " (" ++ ipProtoName (ipv4Proto p) ++ ")"),
     ("Source", ipv4ToString (ipv4Src p)),
     ("Destination", ipv4ToString (ipv4Dst p))]⟩

def ipv6Layer (p : List ℕ) : ProtocolLayer :=
  ⟨"Internet Protocol Version 6",
    [("Version", "6"),
     ("Traffic Class", "0x" ++ hexPad 2 (ipv6TrafficClass p)),
     ("Flow Label", "0x" ++ hexPad 5 (ipv6FlowLabel p)),
     ("Payload Length", lenBytesField (ipv6PayloadLen p)),
     ("Next Header",
       Nat.repr (ipv6NextHeader p) ++ " (" ++ ipProtoName (ipv6NextHeader p) ++ ")"),
     ("Hop Limit", Nat.repr (ipv6HopLimit p)),
     ("Source", ipv6ToString (ipv6Segs p 8)),
     ("Destination", ipv6ToString (ipv6Segs p 24))]⟩

/-- The layer list built by `dissector::dissect_packet`, with `none` at the
same `?` early exits as the Rust code. -/
def dissectLayers (raw : List ℕ) : Option (List ProtocolLayer) :=
  if raw.length < 14 then none
  else
    let et := ethType raw
    if et = 0x0800 then
      let p := ethPayload raw
      if p.length < 20 then none
      else some (ethernetLayer raw :: ipv4Layer p :: ipv4L4Layers p)
    else if et = 0x86DD then
      let p := ethPayload raw
      if p.length < 40 then none
      else some (ethernetLayer raw :: ipv6Layer p :: ipv6L4Layers p)
    else if et = 0x0806 then
      some [ethernetLayer raw,
        ⟨"Address Resolution Protocol",
         [("Payload Length", lenBytesField (ethPayload raw).length)]⟩]
    else some [ethernetLayer raw]

/-- Embeds `dissector::dissect_packet`: builds the layer tree, then fills the
`summary` field by a recursive call `parse_summary(raw_data, id, 0)` (the
Rust code passes the literal timestamp `0`). -/
def dissect_packet (raw_data : List ℕ) (id : ℕ) : Option PacketDetail :=
  match dissectLayers raw_data with
  | none => none
  | some layers =>
    match parse_summary raw_data id 0 with
    | none => none
    | some summary => some ⟨summary, layers, raw_data⟩

/-- The 54-byte IPv4/TCP frame of spec scenario S1. -/
def s1Frame : List ℕ :=
  [0x00, 0x11, 0x22, 0x33, 0x44, 0x55, 0x66, 0x77, 0x88, 0x99, 0xAA, 0xBB, 0x08, 0x00,
   0x45, 0x00, 0x00, 0x3C, 0x00, 0x01, 0x00, 0x00, 0x40, 0x06, 0x00, 0x00,
   0xC0, 0xA8, 0x01, 0x01, 0xC0, 0xA8, 0x01, 0x02,
   0xD4, 0x31, 0x00, 0x50, 0x00, 0x00, 0x00, 0x00, 0x00, 0x00, 0x00, 0x00,
   0x50, 0x02, 0x20, 0x00, 0x00, 0x00, 0x00, 0x00]

/-! ## Packet cache (`BTreeMap<u64, CachedPacket>`) and the admission step of
`capture::run_capture` -/

/-- The cache as a key-ascending association list, the observable content of
the `BTreeMap`. -/
abbrev Cache := List (ℕ × CachedPacket)

/-- Models `BTreeMap::get`. -/
def cacheGet : Cache → ℕ → Option CachedPacket
  | [], _ => none
  | (k, v) :: rest, id => if id = k then some v else cacheGet rest id

/-- Models `BTreeMap::insert` on the ascending association list: insert at the
sorted position, replacing an equal key. -/
def cacheInsert : Cache → ℕ → CachedPacket → Cache
  | [], k, v => [(k, v)]
  | (k0, v0) :: rest, k, v =>
    if k < k0 then (k, v) :: (k0, v0) :: rest
    else if k = k0 then (k, v) :: rest
    else (k0, v0) :: cacheInsert rest k v

/-- The constant `MAX_CACHE_SIZE` of `capture.rs`. -/
def MAX_CACHE_SIZE : ℕ := 100000

/-- The insert-then-trim step of `capture::run_capture`: insert, and when
`len() > MAX_CACHE_SIZE` remove the `len - MAX_CACHE_SIZE` smallest keys
(the first `to_remove` keys of the ascending map). -/
def insertAndTrim (cache : Cache) (id : ℕ) (p : CachedPacket) : Cache :=
  let cache2 := cacheInsert cache id p
  if MAX_CACHE_SIZE < cache2.length then
    cache2.drop (cache2.length - MAX_CACHE_SIZE)
  else cache2

/-- A sequence of admissions into an initially empty cache (the cache is
cleared on capture start). -/
def runAdmissions (adms : List (ℕ × CachedPacket)) : Cache :=
  adms.foldl (fun c kv => insertAndTrim c kv.1 kv.2) []

/-! ## Capture pipeline (`capture::run_capture`) -/

/-- The producer thread of `run_capture`: each frame read from the device
gets `id_counter += 1` and its header timestamp; model a session as the list
of `(bytes, timestamp_ns)` frames read, producing the sent tuples. -/
def assignFrames (id_counter : ℕ) : List (List ℕ × ℤ) → List (ℕ × List ℕ × ℤ)
  | [] => []
  | f :: fs => (id_counter + 1, f.1, f.2) :: assignFrames (id_counter + 1) fs

def capturedFrames (frames : List (List ℕ × ℤ)) : List (ℕ × List ℕ × ℤ) :=
  assignFrames 0 frames

/-- The consumer side of `run_capture`: a frame is admitted exactly when
`parse_summary` succeeds; admitted summaries are appended to the batch
stream in arrival order (the concatenation of all emitted
`new_packet_batch` events). -/
def admittedSummaries (frames : List (List ℕ × ℤ)) : List PacketSummary :=
  (capturedFrames frames).filterMap (fun t => parse_summary t.2.1 t.1 t.2.2)

def admittedIds (frames : List (List ℕ × ℤ)) : List ℕ :=
  (admittedSummaries frames).map (fun s => s.id)

/-! ## Exporter (`export.rs`) -/

def PCAP_MAGIC : ℕ := 0xA1B2C3D4

def PCAP_VERSION_MAJOR : ℕ := 2

def PCAP_VERSION_MINOR : ℕ := 4

def PCAP_THISZONE : ℕ := 0

def PCAP_SIGFIGS : ℕ := 0

def PCAP_SNAPLEN : ℕ := 65535

def PCAP_NETWORK : ℕ := 1

/-- Embeds `export::write_pcap_header`: the 24 bytes written to the file. -/
def write_pcap_header : List ℕ :=
  le32 PCAP_MAGIC ++ le16 PCAP_VERSION_MAJOR ++ le16 PCAP_VERSION_MINOR ++
    le32 PCAP_THISZONE ++ le32 PCAP_SIGFIGS ++ le32 PCAP_SNAPLEN ++ le32 PCAP_NETWORK

/-- Embeds `export::write_packet`: the 16-byte record header then the raw bytes.
`captured_len`/`original_len` are `packet_data.len() as u32`. -/
def write_packet (packet_data : List ℕ) (timestamp_sec timestamp_usec : ℕ) : List ℕ :=
  le32 timestamp_sec ++ le32 timestamp_usec ++
    le32 (packet_data.length % 2 ^ 32) ++ le32 (packet_data.length % 2 ^ 32) ++
    packet_data

/-- Computes `(timestamp_ns / 1_000_000_000) as u32` with Rust `i64` division
(truncation toward zero) and wrapping cast. -/
def recordTsSec (ts : ℤ) : ℕ := u32ofInt (ts.tdiv 1000000000)

/-- Computes `((timestamp_ns % 1_000_000_000) / 1_000).min(999_999) as u32` with Rust
`i64` remainder/division and wrapping cast. -/
def recordTsUsec (ts : ℤ) : ℕ :=
  u32ofInt (min ((ts.tmod 1000000000).tdiv 1000) 999999)

/-- Embeds `export::export_pcap`: header then, for each packet of the list in
order, the record of the cached bytes if the id is in the cache. -/
def export_pcap (packet_cache : Cache) (packet_list : List PacketSummary) : List ℕ :=
  write_pcap_header ++
    packet_list.foldr
      (fun p acc =>
        (match cacheGet packet_cache p.id with
         | some cached =>
           write_packet cached.data (recordTsSec cached.timestamp_ns)
             (recordTsUsec cached.timestamp_ns)
         | none => []) ++ acc)
      []

/-! ## Command surface (`lib.rs`) -/

/-- The per-id lookup-and-reparse done by the `export_pcap` command:
a cache hit whose bytes still summary-parse (with the cached timestamp). -/
def summaryFromCache (packet_cache : Cache) (id : ℕ) : Option PacketSummary :=
  (cacheGet packet_cache id).bind (fun c => parse_summary c.data id c.timestamp_ns)

/-- The sort key of `packet_list.sort_by_key(|p| p.id)`. -/
def sortKeyLe (a b : PacketSummary) : Prop := a.id ≤ b.id

instance : DecidableRel sortKeyLe := fun a b => Nat.decLe a.id b.id

instance : IsTotal PacketSummary sortKeyLe := ⟨fun a b => Nat.le_total a.id b.id⟩

instance : IsTrans PacketSummary sortKeyLe := ⟨fun _ _ _ => Nat.le_trans⟩

/-- The `export_pcap` Tauri command (`lib.rs`): reject an empty id list,
build the filtered summary list, reject if it is empty, sort by id
(`sort_by_key` is a stable sort, modelled by insertion sort), and return the
count written together with the bytes written to the file. -/
def export_pcap_command (packet_cache : Cache) (packet_ids : List ℕ) :
    Except String (ℕ × List ℕ) :=
  if packet_ids.isEmpty then Except.error "No packets to export"
  else
    let packet_list := packet_ids.filterMap (summaryFromCache packet_cache)
    if packet_list.isEmpty then Except.error "No valid packets found in cache"
    else
      let sorted := List.insertionSort sortKeyLe packet_list
      Except.ok (packet_list.length, export_pcap packet_cache sorted)

/-- The pieces of `AppState` observable by `stop_capture`: whether a stop
sender is stored, and the packet cache. -/
structure AppState where
  stop_tx : Option Unit
  packet_cache : Cache
deriving DecidableEq

/-- The `stop_capture` Tauri command: `take()` the stored sender if any and
`try_send` on it (`send_result` models the channel's outcome); with no
stored sender it is a no-op returning `Ok(())`. -/
def stop_capture (state : AppState) (send_result : Except String Unit) :
    Except String Unit × AppState :=
  match state.stop_tx with
  | none => (Except.ok (), state)
  | some _ =>
    match send_result with
    | Except.ok () => (Except.ok (), ⟨none, state.packet_cache⟩)
    | Except.error e =>
      (Except.error ("Failed to send stop signal: " ++ e), ⟨none, state.packet_cache⟩)

/-! ## Concrete inputs and spec-side definitions used by the theorems -/

/-- A 14-byte frame whose ethertype is IPv4 and whose IPv4 payload is empty:
Ethernet framing is established. -/
def ethOnlyIpv4Frame : List ℕ := [0, 0, 0, 0, 0, 0, 0, 0, 0, 0, 0, 0, 0x08, 0x00]

/-- A minimal 34-byte IPv4 frame (zero IPv4 header fields). -/
def ipv4MinFrame : List ℕ :=
  [0, 0, 0, 0, 0, 0, 0, 0, 0, 0, 0, 0, 0x08, 0x00,
   0, 0, 0, 0, 0, 0, 0, 0, 0, 0, 0, 0, 0, 0, 0, 0, 0, 0, 0, 0]

/-- Two-frame session: the first frame is a 3-byte buffer that fails summary
parsing (spec scenario S4), the second is a parseable IPv4 frame. -/
def badThenGoodFrames : List (List ℕ × ℤ) := [([0, 1, 2], 0), (ipv4MinFrame, 0)]

/-- A concrete two-admission sequence with increasing ids. -/
def twoAdmissions : List (ℕ × CachedPacket) :=
  [(1, CachedPacket.mk [0] 0), (2, CachedPacket.mk [1] 0)]

/-- Modelled from the spec: the 24 global-header bytes required by §4.5/§8 S6. -/
def specPcapGlobalHeader : List ℕ :=
  [0xd4, 0xc3, 0xb2, 0xa1, 0x02, 0x00, 0x04, 0x00,
   0x00, 0x00, 0x00, 0x00, 0x00, 0x00, 0x00, 0x00,
   0xff, 0xff, 0x00, 0x00, 0x01, 0x00, 0x00, 0x00]

/-- Modelled from the spec: a record is a 16-byte little-endian header with
ts_sec = ts_ns / 10⁹, ts_usec = min((ts_ns mod 10⁹) / 10³, 999 999),
captured_len = original_len = byte length, then the raw bytes verbatim
(division and remainder truncate toward zero as in Rust `i64`, and the
32-bit fields take the low 32 bits). -/
def specRecord (c : CachedPacket) : List ℕ :=
  le32 (u32ofInt (c.timestamp_ns.tdiv (10 ^ 9))) ++
    le32 (u32ofInt (min ((c.timestamp_ns.tmod (10 ^ 9)).tdiv (10 ^ 3)) 999999)) ++
    le32 c.data.length ++ le32 c.data.length ++ c.data

/-! ## Sanity checks on the spec's literal scenarios -/

example : parse_summary s1Frame 1 1000000000 =
    some ⟨1, 1000000000, "192.168.1.1", "192.168.1.2", "TCP", 54,
      "192.168.1.1 → 192.168.1.2 [80]"⟩ := by decide

example : parse_summary [0, 1, 2] 1 0 = none := by decide

/-! ## Lemmas about `parse_summary` -/

theorem parse_summary_id {raw : List ℕ} {id : ℕ} {ts : ℤ} {s : PacketSummary}
    (h : parse_summary raw id ts = some s) : s.id = id := by
  simp only [parse_summary] at h
  split at h
  · exact Option.noConfusion h
  · split at h
    · split at h
      · exact Option.noConfusion h
      · simp only [Option.some.injEq] at h
        subst h
        rfl
    · split at h
      · split at h
        · exact Option.noConfusion h
        · simp only [Option.some.injEq] at h
          subst h
          rfl
      · split at h
        · simp only [Option.some.injEq] at h
          subst h
          rfl
        · simp only [Option.some.injEq] at h
          subst h
          rfl

theorem parse_summary_eq_none_iff (raw : List ℕ) (id : ℕ) (ts : ℤ) :
    parse_summary raw id ts = none ↔
      raw.length < 14 ∨ (ethType raw = 0x0800 ∧ raw.length < 34) ∨
        (ethType raw = 0x86DD ∧ raw.length < 54) := by
  simp only [parse_summary]
  by_cases h1 : raw.length < 14
  · simp only [if_pos h1]
    simp [h1]
  · simp only [if_neg h1]
    by_cases h2 : ethType raw = 0x0800
    · by_cases h3 : (ethPayload raw).length < 20
      · simp only [if_pos h2, if_pos h3]
        simp only [ethPayload, List.length_drop] at h3
        simp [h1, h2, h3]
        omega
      · simp only [if_pos h2, if_neg h3]
        simp only [ethPayload, List.length_drop] at h3
        simp [h1, h2]
        omega
    · simp only [if_neg h2]
      by_cases h4 : ethType raw = 0x86DD
      · by_cases h5 : (ethPayload raw).length < 40
        · simp only [if_pos h4, if_pos h5]
          simp only [ethPayload, List.length_drop] at h5
          simp [h1, h2, h4]
          omega
        · simp only [if_pos h4, if_neg h5]
          simp only [ethPayload, List.length_drop] at h5
          simp [h1, h2, h4]
          omega
      · simp only [if_neg h4]
        by_cases h6 : ethType raw = 0x0806 <;> simp [h1, h2, h4, h6]

theorem parse_summary_isSome_ts (raw : List ℕ) (id : ℕ) (ts ts2 : ℤ) :
    (parse_summary raw id ts).isSome = (parse_summary raw id ts2).isSome := by
  rcases h : parse_summary raw id ts with _ | s <;>
    rcases h2 : parse_summary raw id ts2 with _ | s2 <;> simp
  · rw [parse_summary_eq_none_iff] at h
    rw [← parse_summary_eq_none_iff raw id ts2] at h
    rw [h] at h2
    exact Option.noConfusion h2
  · rw [parse_summary_eq_none_iff] at h2
    rw [← parse_summary_eq_none_iff raw id ts] at h2
    rw [h2] at h
    exact Option.noConfusion h

/-- C3 (amended): summary parsing yields absent exactly when the buffer is
too short for the 14-byte Ethernet header, or Ethernet framing succeeds but
the ethertype is IPv4 and the payload is shorter than the 20-byte IPv4
header minimum, or the ethertype is IPv6 and the payload is shorter than the
40-byte IPv6 header minimum. -/
theorem C3_parse_summary_absent_iff (raw : List ℕ) (id : ℕ) (ts : ℤ) :
    parse_summary raw id ts = none ↔
      raw.length < 14 ∨ (ethType raw = 0x0800 ∧ raw.length < 34) ∨
        (ethType raw = 0x86DD ∧ raw.length < 54) :=
  parse_summary_eq_none_iff raw id ts

/-- C3 counterexample: a buffer in which Ethernet framing is established
(length 14, not too short for the Ethernet header) for which summary parsing
still yields absent, refuting "a summary is produced for every buffer in
which Ethernet framing is established". -/
theorem C3_counterexample :
    14 ≤ ethOnlyIpv4Frame.length ∧ parse_summary ethOnlyIpv4Frame 1 0 = none := by
  decide

/-- C4: for every IPv4 frame that summary-parses, the info string is
"src → dst" (arrow U+2192) with " [dport]" appended exactly when the IPv4
next-protocol field is TCP (6) or UDP (17) and the corresponding L4 header
parses from the IPv4 payload (20-byte TCP minimum, 8-byte UDP minimum),
`dport` being the L4 destination port in decimal. -/
theorem C4_ipv4_info_format (raw : List ℕ) (id : ℕ) (ts : ℤ) (s : PacketSummary)
    (het : ethType raw = 0x0800) (hs : parse_summary raw id ts = some s) :
    s.info = s.source_addr ++ " → " ++ s.dest_addr ++
      (if ipv4Proto (ethPayload raw) = 6 ∧ 20 ≤ (ipv4Payload (ethPayload raw)).length then
        " [" ++ Nat.repr (tcpDstPort (ipv4Payload (ethPayload raw))) ++ "]"
      else if ipv4Proto (ethPayload raw) = 17 ∧ 8 ≤ (ipv4Payload (ethPayload raw)).length then
        " [" ++ Nat.repr (udpDstPort (ipv4Payload (ethPayload raw))) ++ "]"
      else "") := by
  have h14 : ¬ raw.length < 14 := by
    intro h
    rw [(parse_summary_eq_none_iff raw id ts).mpr (Or.inl h)] at hs
    exact Option.noConfusion hs
  have hip : ¬ (ethPayload raw).length < 20 := by
    intro h
    simp only [ethPayload, List.length_drop] at h
    rw [(parse_summary_eq_none_iff raw id ts).mpr (Or.inr (Or.inl ⟨het, by omega⟩))] at hs
    exact Option.noConfusion hs
  simp only [parse_summary] at hs
  rw [if_neg h14, if_pos het, if_neg hip] at hs
  simp only [Option.some.injEq] at hs
  subst hs
  by_cases h6 : ipv4Proto (ethPayload raw) = 6
  · by_cases h20 : 20 ≤ (ipv4Payload (ethPayload raw)).length
    · simp [h6, h20, String.append_assoc]
    · simp [h6, h20, String.append_assoc]
  · by_cases h17 : ipv4Proto (ethPayload raw) = 17
    · by_cases h8 : 8 ≤ (ipv4Payload (ethPayload raw)).length
      · simp [h6, h17, h8, String.append_assoc]
      · simp [h6, h17, h8, String.append_assoc]
    · simp [h6, h17, String.append_assoc]

/-- C4 witness: the theorem applied to the concrete IPv4/TCP frame of spec
scenario S1, whose info string carries the TCP destination port 80. -/
theorem C4_witness :
    ethType s1Frame = 0x0800 ∧
      parse_summary s1Frame 1 0 =
        some ⟨1, 0, "192.168.1.1", "192.168.1.2", "TCP", 54,
          "192.168.1.1 → 192.168.1.2 [80]"⟩ ∧
      "192.168.1.1 → 192.168.1.2 [80]" =
        "192.168.1.1" ++ " → " ++ "192.168.1.2" ++
          (if ipv4Proto (ethPayload s1Frame) = 6 ∧
              20 ≤ (ipv4Payload (ethPayload s1Frame)).length then
            " [" ++ Nat.repr (tcpDstPort (ipv4Payload (ethPayload s1Frame))) ++ "]"
          else if ipv4Proto (ethPayload s1Frame) = 17 ∧
              8 ≤ (ipv4Payload (ethPayload s1Frame)).length then
            " [" ++ Nat.repr (udpDstPort (ipv4Payload (ethPayload s1Frame))) ++ "]"
          else "") :=
  ⟨by decide, by decide,
    C4_ipv4_info_format s1Frame 1 0
      ⟨1, 0, "192.168.1.1", "192.168.1.2", "TCP", 54, "192.168.1.1 → 192.168.1.2 [80]"⟩
      (by decide) (by decide)⟩

/-! ## Lemmas about `dissect_packet` -/

theorem dissectLayers_eq_none_iff (raw : List ℕ) :
    dissectLayers raw = none ↔
      raw.length < 14 ∨ (ethType raw = 0x0800 ∧ raw.length < 34) ∨
        (ethType raw = 0x86DD ∧ raw.length < 54) := by
  simp only [dissectLayers]
  by_cases h1 : raw.length < 14
  · simp [h1]
  · simp only [if_neg h1]
    by_cases h2 : ethType raw = 0x0800
    · by_cases h3 : (ethPayload raw).length < 20
      · simp only [if_pos h2, if_pos h3]
        simp only [ethPayload, List.length_drop] at h3
        simp [h1, h2, h3]
        omega
      · simp only [if_pos h2, if_neg h3]
        simp only [ethPayload, List.length_drop] at h3
        simp [h1, h2]
        omega
    · simp only [if_neg h2]
      by_cases h4 : ethType raw = 0x86DD
      · by_cases h5 : (ethPayload raw).length < 40
        · simp only [if_pos h4, if_pos h5]
          simp only [ethPayload, List.length_drop] at h5
          simp [h1, h2, h4]
          omega
        · simp only [if_pos h4, if_neg h5]
          simp only [ethPayload, List.length_drop] at h5
          simp [h1, h2, h4]
          omega
      · by_cases h6 : ethType raw = 0x0806 <;> simp [h1, h2, h4, h6]

theorem dissect_packet_map_summary (raw : List ℕ) (id : ℕ) :
    (dissect_packet raw id).map PacketDetail.summary = parse_summary raw id 0 := by
  unfold dissect_packet
  cases hL : dissectLayers raw with
  | none =>
    have hp : parse_summary raw id 0 = none := by
      rw [parse_summary_eq_none_iff]
      rw [dissectLayers_eq_none_iff] at hL
      exact hL
    rw [hp]
    rfl
  | some layers =>
    cases hp : parse_summary raw id 0 with
    | none => rfl
    | some s => rfl

/-- C5 (amended): the summary field inside the detail result is produced by
a recursive call to the summary parser with the constant timestamp 0 — the
Rust code passes the literal `0`, not a clock reading. -/
theorem C5_detail_summary_from_parse (raw : List ℕ) (id : ℕ) :
    (dissect_packet raw id).map PacketDetail.summary = parse_summary raw id 0 :=
  dissect_packet_map_summary raw id

/-- C5 counterexample: at this concrete input the timestamp inside the
detail's summary is the constant 0 (the Unix epoch) — `dissect_packet` is a
pure function of the bytes and id with no clock input, so the timestamp is
not synthesized from the system clock at the time of the call. -/
theorem C5_counterexample :
    (dissect_packet ipv4MinFrame 7).map (fun d => d.summary.timestamp) = some 0 := by
  decide

/-- C9: detail dissection succeeds exactly when summary parsing succeeds
(for any timestamp), the returned raw_bytes equal the input buffer verbatim,
and the summary inside carries the given id. -/
theorem C9_detail_vs_summary (raw : List ℕ) (id : ℕ) (ts : ℤ) :
    (dissect_packet raw id).isSome = (parse_summary raw id ts).isSome
    ∧ (dissect_packet raw id).map PacketDetail.raw_bytes
        = (dissect_packet raw id).map (fun _ => raw)
    ∧ (dissect_packet raw id).map (fun d => d.summary.id)
        = (dissect_packet raw id).map (fun _ => id) := by
  refine ⟨?_, ?_, ?_⟩
  · have h1 : (dissect_packet raw id).isSome
        = ((dissect_packet raw id).map PacketDetail.summary).isSome := by
      rw [Option.isSome_map']
    rw [h1, dissect_packet_map_summary, parse_summary_isSome_ts raw id 0 ts]
  · unfold dissect_packet
    cases hL : dissectLayers raw with
    | none => rfl
    | some layers =>
      cases hp : parse_summary raw id 0 with
      | none => rfl
      | some s => rfl
  · unfold dissect_packet
    cases hL : dissectLayers raw with
    | none => rfl
    | some layers =>
      cases hp : parse_summary raw id 0 with
      | none => rfl
      | some s =>
        simp [parse_summary_id hp]

/-! ## Exporter format (C2) -/

theorem le32_mod (n : ℕ) : le32 (n % 2 ^ 32) = le32 n := by
  have h32 : (2 : ℕ) ^ 32 = 4294967296 := by norm_num
  simp only [le32, h32, List.cons.injEq, and_true]
  refine ⟨?_, ?_, ?_, ?_⟩ <;> omega

/-- C2: the exported file is exactly the 24 spec header bytes followed, for
each packet found in the cache, by the 16-byte record header (ts_sec,
ts_usec, captured_len = original_len = byte length, all little-endian) and
the raw bytes verbatim. -/
theorem C2_export_file_format (cache : Cache) (ps : List PacketSummary) :
    export_pcap cache ps = specPcapGlobalHeader ++
      ps.foldr (fun p acc =>
        (match cacheGet cache p.id with
         | some c => specRecord c
         | none => []) ++ acc) [] := by
  unfold export_pcap
  have hh : write_pcap_header = specPcapGlobalHeader := by decide
  rw [hh]
  congr 1
  induction ps with
  | nil => rfl
  | cons p rest ih =>
    simp only [List.foldr_cons, ih]
    congr 1
    cases cacheGet cache p.id with
    | none => rfl
    | some c =>
      simp only [write_packet, specRecord, recordTsSec, recordTsUsec, le32_mod]
      norm_num

/-! ## stop_capture (C10) -/

/-- C10: calling stop_capture while no capture session is running (no stored
stop-channel sender) returns success and leaves the whole session state —
including the packet cache — unchanged. -/
theorem C10_stop_capture_idle_noop (state : AppState) (send_result : Except String Unit)
    (h : state.stop_tx = none) :
    stop_capture state send_result = (Except.ok (), state) := by
  unfold stop_capture
  rw [h]

/-- C10 witness: the theorem applied to the concrete idle state with an
empty cache. -/
theorem C10_witness :
    (AppState.mk none [] : AppState).stop_tx = none ∧
      stop_capture (AppState.mk none []) (Except.ok ())
        = (Except.ok (), AppState.mk none []) :=
  ⟨rfl, C10_stop_capture_idle_noop (AppState.mk none []) (Except.ok ()) rfl⟩

/-! ## Capture id assignment and admission (C8) -/

theorem assignFrames_map_fst (k : ℕ) (fs : List (List ℕ × ℤ)) :
    (assignFrames k fs).map (fun t => t.1) = List.range' (k + 1) fs.length := by
  induction fs generalizing k with
  | nil => rfl
  | cons f fs ih =>
    simp only [assignFrames, List.map_cons, List.length_cons, List.range'_succ]
    rw [ih]

theorem filterMap_parse_map_id (l : List (ℕ × List ℕ × ℤ)) :
    (l.filterMap (fun t => parse_summary t.2.1 t.1 t.2.2)).map (fun s => s.id)
      = (l.filter (fun t => (parse_summary t.2.1 t.1 t.2.2).isSome)).map (fun t => t.1) := by
  induction l with
  | nil => rfl
  | cons t rest ih =>
    cases hp : parse_summary t.2.1 t.1 t.2.2 with
    | none => simpa [List.filterMap_cons, List.filter_cons, hp] using ih
    | some s =>
      simp [List.filterMap_cons, List.filter_cons, hp, ih, parse_summary_id hp]

/-- C8 (amended): the producer assigns ids starting at 1 and incrementing by
1 for every frame read, and the admitted ids appearing across emitted
batches form a strictly increasing subsequence of 1..n; when an early frame
fails summary parsing the admitted sequence does not start at 1 and has gaps
at the dropped ids. -/
theorem C8_ids_assigned_and_admitted (frames : List (List ℕ × ℤ)) :
    (capturedFrames frames).map (fun t => t.1) = List.range' 1 frames.length
    ∧ (admittedIds frames).Sublist (List.range' 1 frames.length)
    ∧ List.Pairwise (· < ·) (admittedIds frames) := by
  have hassign := assignFrames_map_fst 0 frames
  have hsub : (admittedIds frames).Sublist (List.range' 1 frames.length) := by
    rw [admittedIds, admittedSummaries, filterMap_parse_map_id, ← hassign]
    exact List.Sublist.map _ (List.filter_sublist _)
  refine ⟨hassign, hsub, ?_⟩
  exact (List.pairwise_lt_range' 1 frames.length).sublist hsub

/-- C8 counterexample: a session in which the admitted-id sequence is `[2]`,
which does not start at 1 — frame 1 consumed an id without being admitted. -/
theorem C8_counterexample : admittedIds badThenGoodFrames = [2] := by decide

/-! ## Cache bound and eviction (C1) -/

theorem cacheInsert_append (c : Cache) (k : ℕ) (v : CachedPacket)
    (h : ∀ e ∈ c, e.1 < k) : cacheInsert c k v = c ++ [(k, v)] := by
  induction c with
  | nil => rfl
  | cons e rest ih =>
    obtain ⟨k0, v0⟩ := e
    have h1 : k0 < k := h (k0, v0) (List.mem_cons_self _ _)
    simp only [cacheInsert]
    rw [if_neg (by omega), if_neg (by omega),
      ih (fun x hx => h x (List.mem_cons_of_mem _ hx))]
    rfl

theorem runAdmissions_eq_drop (adms : List (ℕ × CachedPacket))
    (h : List.Pairwise (· < ·) (adms.map Prod.fst)) :
    runAdmissions adms = adms.drop (adms.length - MAX_CACHE_SIZE) := by
  induction adms using List.reverseRecOn with
  | nil => rfl
  | append_singleton l a ih =>
    obtain ⟨ak, av⟩ := a
    rw [List.map_append] at h
    have hl : List.Pairwise (· < ·) (l.map Prod.fst) := (List.pairwise_append.mp h).1
    have hlt : ∀ e ∈ l, e.1 < ak := by
      intro e he
      exact (List.pairwise_append.mp h).2.2 e.1 (List.mem_map_of_mem _ he) ak (by simp)
    have hstep : runAdmissions (l ++ [(ak, av)])
        = insertAndTrim (runAdmissions l) ak av := by
      simp [runAdmissions, List.foldl_append]
    rw [hstep, ih hl]
    have hmem : ∀ e ∈ l.drop (l.length - MAX_CACHE_SIZE), e.1 < ak :=
      fun e he => hlt e (List.mem_of_mem_drop he)
    simp only [insertAndTrim]
    rw [cacheInsert_append _ _ _ hmem]
    have hM : 0 < MAX_CACHE_SIZE := by decide
    have hdl : (l.drop (l.length - MAX_CACHE_SIZE)).length
        = l.length - (l.length - MAX_CACHE_SIZE) := List.length_drop _ _
    by_cases hn : l.length < MAX_CACHE_SIZE
    · rw [show l.length - MAX_CACHE_SIZE = 0 from by omega, List.drop_zero]
      rw [if_neg (by simp; omega)]
      rw [show (l ++ [(ak, av)]).length - MAX_CACHE_SIZE = 0 from by
        simp; omega]
      rw [List.drop_zero]
    · have hlen2 : (l.drop (l.length - MAX_CACHE_SIZE) ++ [(ak, av)]).length
          = MAX_CACHE_SIZE + 1 := by
        simp only [List.length_append, hdl, List.length_cons, List.length_nil]
        omega
      rw [if_pos (by omega), hlen2]
      rw [show MAX_CACHE_SIZE + 1 - MAX_CACHE_SIZE = 1 from by omega]
      rw [List.drop_append_of_le_length (by omega), List.drop_drop]
      rw [List.drop_append_of_le_length (by simp; omega)]
      rw [show l.length - MAX_CACHE_SIZE + 1 = (l ++ [(ak, av)]).length - MAX_CACHE_SIZE
        from by simp; omega]

/-- C1: after any sequence of admissions with strictly increasing ids (the
pipeline's admission order) into an initially empty cache, the cache holds
at most MAX_CACHE_SIZE (100 000) entries; the surviving entries are exactly
the last min(MAX_CACHE_SIZE, n) admitted, i.e. the trim removed exactly the
k = n − MAX_CACHE_SIZE smallest ids and every evicted id is smaller than
every surviving id. -/
theorem C1_cache_bound_and_eviction (adms : List (ℕ × CachedPacket))
    (h : List.Pairwise (· < ·) (adms.map Prod.fst)) :
    (runAdmissions adms).length ≤ MAX_CACHE_SIZE
    ∧ runAdmissions adms = adms.drop (adms.length - MAX_CACHE_SIZE)
    ∧ ∀ x ∈ (adms.take (adms.length - MAX_CACHE_SIZE)).map Prod.fst,
        ∀ y ∈ (adms.drop (adms.length - MAX_CACHE_SIZE)).map Prod.fst, x < y := by
  have h2 := runAdmissions_eq_drop adms h
  refine ⟨?_, h2, ?_⟩
  · rw [h2, List.length_drop]
    omega
  · intro x hx y hy
    have hsplit := List.take_append_drop (adms.length - MAX_CACHE_SIZE) adms
    conv at h => rw [← hsplit]
    rw [List.map_append] at h
    exact (List.pairwise_append.mp h).2.2 x hx y hy

/-- C1 witness: the theorem applied to the concrete two-admission sequence. -/
theorem C1_witness :
    List.Pairwise (· < ·) (twoAdmissions.map Prod.fst)
    ∧ ((runAdmissions twoAdmissions).length ≤ MAX_CACHE_SIZE
      ∧ runAdmissions twoAdmissions
          = twoAdmissions.drop (twoAdmissions.length - MAX_CACHE_SIZE)
      ∧ ∀ x ∈ (twoAdmissions.take (twoAdmissions.length - MAX_CACHE_SIZE)).map Prod.fst,
          ∀ y ∈ (twoAdmissions.drop (twoAdmissions.length - MAX_CACHE_SIZE)).map Prod.fst,
            x < y) :=
  ⟨by decide, C1_cache_bound_and_eviction twoAdmissions (by decide)⟩

/-! ## Export command rejections (C6) -/

/-- C6: the export command rejects with "No packets to export" exactly when
the id list is empty, and with "No valid packets found in cache" exactly
when the id list is non-empty but no given id is both present in the cache
and summary-parseable.  In both reject cases the command returns before the
file is created, so no packets (indeed no bytes) are written. -/
theorem C6_export_reject_conditions (cache : Cache) (ids : List ℕ) :
    (export_pcap_command cache ids = Except.error "No packets to export" ↔ ids = [])
    ∧ (export_pcap_command cache ids = Except.error "No valid packets found in cache"
        ↔ ids ≠ [] ∧ ∀ id ∈ ids, summaryFromCache cache id = none) := by
  have hstr : ("No packets to export" : String) ≠ "No valid packets found in cache" := by
    decide
  by_cases h1 : ids = []
  · subst h1
    refine ⟨by simp [export_pcap_command], ?_⟩
    simp only [export_pcap_command, List.isEmpty_nil, if_pos trivial]
    constructor
    · intro hcontr
      simp only [Except.error.injEq] at hcontr
      exact absurd hcontr hstr
    · intro hcontr
      exact absurd rfl hcontr.1
  · have h1b : ¬ (ids.isEmpty = true) := by
      simp [List.isEmpty_iff, h1]
    by_cases h2 : (ids.filterMap (summaryFromCache cache)).isEmpty = true
    · have hall : ∀ id ∈ ids, summaryFromCache cache id = none :=
        List.filterMap_eq_nil_iff.mp (List.isEmpty_iff.mp h2)
      refine ⟨?_, ?_⟩
      · simp only [export_pcap_command, if_neg h1b, if_pos h2]
        constructor
        · intro hcontr
          simp only [Except.error.injEq] at hcontr
          exact absurd hcontr.symm hstr
        · intro hcontr
          exact absurd hcontr h1
      · simp only [export_pcap_command, if_neg h1b, if_pos h2]
        constructor
        · intro _
          exact ⟨h1, hall⟩
        · intro _
          trivial
    · refine ⟨?_, ?_⟩
      · simp only [export_pcap_command, if_neg h1b, if_neg h2]
        constructor
        · intro hcontr
          exact Except.noConfusion hcontr
        · intro hcontr
          exact absurd hcontr h1
      · simp only [export_pcap_command, if_neg h1b, if_neg h2]
        constructor
        · intro hcontr
          exact Except.noConfusion hcontr
        · intro hcontr
          refine absurd ?_ h2
          simp only [List.isEmpty_eq_true, List.filterMap_eq_nil_iff]
          exact hcontr.2

/-- C6 witness: the theorem instantiated at concrete inputs — the empty id
list is rejected with "No packets to export", and a non-empty id list with
no cache hit is rejected with "No valid packets found in cache". -/
theorem C6_witness :
    export_pcap_command [] [] = Except.error "No packets to export"
    ∧ export_pcap_command [] [3] = Except.error "No valid packets found in cache" :=
  ⟨(C6_export_reject_conditions [] []).1.mpr rfl,
    (C6_export_reject_conditions [] [3]).2.mpr ⟨by decide, by decide⟩⟩

/-! ## Export command output order and count (C7) -/

theorem summaryFromCache_id {cache : Cache} {id : ℕ} {s : PacketSummary}
    (h : summaryFromCache cache id = some s) : s.id = id := by
  unfold summaryFromCache at h
  cases hc : cacheGet cache id with
  | none => rw [hc] at h; exact Option.noConfusion h
  | some c =>
    rw [hc] at h
    exact parse_summary_id h

theorem summaryFromCache_hit {cache : Cache} {id : ℕ} {s : PacketSummary}
    (h : summaryFromCache cache id = some s) : (cacheGet cache id).isSome = true := by
  unfold summaryFromCache at h
  cases hc : cacheGet cache id with
  | none => rw [hc] at h; exact Option.noConfusion h
  | some c => rfl

theorem survivors_unique (cache : Cache) (ids : List ℕ) :
    ∀ a ∈ ids.filterMap (summaryFromCache cache),
      ∀ b ∈ ids.filterMap (summaryFromCache cache), a.id = b.id → a = b := by
  intro a ha b hb hid
  obtain ⟨ia, _, hfa⟩ := List.mem_filterMap.mp ha
  obtain ⟨ib, _, hfb⟩ := List.mem_filterMap.mp hb
  have hii : ia = ib := by
    rw [← summaryFromCache_id hfa, ← summaryFromCache_id hfb, hid]
  subst hii
  rw [hfa] at hfb
  exact Option.some.inj hfb

/-- Two lists that are permutations of each other, both sorted by id, whose
elements are determined by their ids, are equal. -/
theorem sorted_perm_eq_of_unique :
    ∀ {l₁ l₂ : List PacketSummary}, l₁.Perm l₂ →
      l₁.Pairwise sortKeyLe → l₂.Pairwise sortKeyLe →
      (∀ a ∈ l₁, ∀ b ∈ l₁, a.id = b.id → a = b) → l₁ = l₂ := by
  intro l₁
  induction l₁ with
  | nil =>
    intro l₂ hp _ _ _
    exact (List.Perm.eq_nil hp.symm).symm
  | cons a t ih =>
    intro l₂ hp h₁ h₂ hu
    cases l₂ with
    | nil => exact absurd (List.Perm.eq_nil hp) (by simp)
    | cons b t₂ =>
      have hab : a = b := by
        by_cases heq : a = b
        · exact heq
        · have hamem : a ∈ b :: t₂ := hp.mem_iff.mp (List.mem_cons_self a t)
          have hbmem : b ∈ a :: t := hp.mem_iff.mpr (List.mem_cons_self b t₂)
          have ha2 : a ∈ t₂ := by
            cases List.mem_cons.mp hamem with
            | inl hh => exact absurd hh heq
            | inr hh => exact hh
          have hb2 : b ∈ t := by
            cases List.mem_cons.mp hbmem with
            | inl hh => exact absurd hh.symm heq
            | inr hh => exact hh
          have hle1 : sortKeyLe a b := (List.pairwise_cons.mp h₁).1 b hb2
          have hle2 : sortKeyLe b a := (List.pairwise_cons.mp h₂).1 a ha2
          exact hu a (List.mem_cons_self a t) b hbmem (Nat.le_antisymm hle1 hle2)
      subst hab
      have ht : t.Perm t₂ := hp.cons_inv
      rw [ih ht (List.pairwise_cons.mp h₁).2 (List.pairwise_cons.mp h₂).2
        (fun x hx y hy => hu x (List.mem_cons_of_mem _ hx) y (List.mem_cons_of_mem _ hy))]

theorem export_pcap_command_eq_ok (cache : Cache) (ids : List ℕ)
    (h : ids.filterMap (summaryFromCache cache) ≠ []) :
    export_pcap_command cache ids
      = Except.ok ((ids.filterMap (summaryFromCache cache)).length,
          export_pcap cache
            (List.insertionSort sortKeyLe (ids.filterMap (summaryFromCache cache)))) := by
  have hids : ids ≠ [] := by
    intro h0
    subst h0
    exact h rfl
  have h1b : ¬ (ids.isEmpty = true) := by simp [List.isEmpty_iff, hids]
  have h2b : ¬ ((ids.filterMap (summaryFromCache cache)).isEmpty = true) := by
    simp [List.isEmpty_iff, h]
  simp only [export_pcap_command, if_neg h1b, if_neg h2b]

/-- C7: when at least one given id survives (present in the cache and
summary-parseable), the export command succeeds; the records are written in
ascending id order; every written record has a cache entry (so the returned
count — the number of survivors — equals the number of records written); and
the result is invariant under permutation of the input id list. -/
theorem C7_export_order_and_count (cache : Cache) (ids : List ℕ)
    (h : ids.filterMap (summaryFromCache cache) ≠ []) :
    export_pcap_command cache ids
        = Except.ok ((ids.filterMap (summaryFromCache cache)).length,
            export_pcap cache
              (List.insertionSort sortKeyLe (ids.filterMap (summaryFromCache cache))))
    ∧ List.Pairwise (· ≤ ·)
        ((List.insertionSort sortKeyLe (ids.filterMap (summaryFromCache cache))).map
          (fun s => s.id))
    ∧ (List.insertionSort sortKeyLe (ids.filterMap (summaryFromCache cache))).all
        (fun p => (cacheGet cache p.id).isSome) = true
    ∧ ∀ ids2 : List ℕ, ids2.Perm ids →
        export_pcap_command cache ids2 = export_pcap_command cache ids := by
  refine ⟨export_pcap_command_eq_ok cache ids h, ?_, ?_, ?_⟩
  · rw [List.pairwise_map]
    exact List.sorted_insertionSort sortKeyLe (ids.filterMap (summaryFromCache cache))
  · rw [List.all_eq_true]
    intro p hp
    have hp2 : p ∈ ids.filterMap (summaryFromCache cache) :=
      (List.perm_insertionSort sortKeyLe _).subset hp
    obtain ⟨i, _, hfi⟩ := List.mem_filterMap.mp hp2
    rw [summaryFromCache_id hfi]
    exact summaryFromCache_hit hfi
  · intro ids2 hperm
    have hfm : (ids2.filterMap (summaryFromCache cache)).Perm
        (ids.filterMap (summaryFromCache cache)) := hperm.filterMap _
    have h2 : ids2.filterMap (summaryFromCache cache) ≠ [] := by
      intro h0
      rw [h0] at hfm
      exact h (List.Perm.eq_nil hfm.symm)
    rw [export_pcap_command_eq_ok cache ids h, export_pcap_command_eq_ok cache ids2 h2]
    have hsort : List.insertionSort sortKeyLe (ids2.filterMap (summaryFromCache cache))
        = List.insertionSort sortKeyLe (ids.filterMap (summaryFromCache cache)) := by
      apply sorted_perm_eq_of_unique
      · exact (List.perm_insertionSort sortKeyLe _).trans
          (hfm.trans (List.perm_insertionSort sortKeyLe _).symm)
      · exact List.sorted_insertionSort sortKeyLe _
      · exact List.sorted_insertionSort sortKeyLe _
      · intro a ha b hb
        exact survivors_unique cache ids2 a
          ((List.perm_insertionSort sortKeyLe _).subset ha) b
          ((List.perm_insertionSort sortKeyLe _).subset hb)
    rw [hsort, hfm.length_eq]

/-- C7 witness: the theorem applied to a concrete one-entry cache holding
the S1 frame under id 1, with the id list [1]. -/
theorem C7_witness :
    ([(1, CachedPacket.mk s1Frame 0)] : Cache).length = 1
    ∧ ([1] : List ℕ).filterMap (summaryFromCache [(1, CachedPacket.mk s1Frame 0)]) ≠ []
    ∧ export_pcap_command [(1, CachedPacket.mk s1Frame 0)] [1]
        = Except.ok
            ((([1] : List ℕ).filterMap
                (summaryFromCache [(1, CachedPacket.mk s1Frame 0)])).length,
              export_pcap [(1, CachedPacket.mk s1Frame 0)]
                (List.insertionSort sortKeyLe
                  (([1] : List ℕ).filterMap
                    (summaryFromCache [(1, CachedPacket.mk s1Frame 0)])))) :=
  ⟨rfl, by decide,
    (C7_export_order_and_count [(1, CachedPacket.mk s1Frame 0)] [1] (by decide)).1⟩

end RWire
